import Mathlib

/-!
Verification of the tmpmail specification against a shallow embedding of the
repository's Python sources (src/tmpmail).  Pure helpers (string cleaning,
hashing, link scanning) are translated into executable Lean functions; the
monitoring loops are embedded as folds over the sequence of fetch results and
push events observed within one monitoring session; fallible code returns
`Except PyExc`.  Each claim of the specification is then stated and settled
as a theorem about these definitions.
-/

namespace Tmpmail

/-! ## Python-style exceptions -/

/-- The exception kinds raised by the embedded code paths. -/
inductive PyExc where
  | valueError (msg : String)
  | exception (msg : String)
  | typeError
deriving DecidableEq, Repr

/-! ## Basic string helpers -/

/-- Python truthiness of an optional string: `None` and `""` are falsy. -/
def optTruthy : Option String → Bool
  | none => false
  | some s => s ≠ ""

/-- ASCII lowercasing of one character, as Python `str.lower` /
`re.IGNORECASE` act on the ASCII letters used by the embedded patterns. -/
def lowChar (c : Char) : Char :=
  if 'A' ≤ c ∧ c ≤ 'Z' then Char.ofNat (c.toNat + 32) else c

/-- ASCII lowercasing of a string (Python `str.lower()` on ASCII input). -/
def pyLower (s : String) : String := ⟨s.data.map lowChar⟩

/-- Python `s.startswith(p)` (exact, case-sensitive). -/
def pyStartsWith (s p : String) : Bool := p.data.isPrefixOf s.data

/-- Python `needle in hay` for strings, on the character list. -/
def listHasInfix (nd : List Char) : List Char → Bool
  | [] => nd.isEmpty
  | c :: cs => nd.isPrefixOf (c :: cs) || listHasInfix nd cs

/-- Python `needle in hay` for strings. -/
def pyContains (hay nd : String) : Bool := listHasInfix nd.data hay.data

/-- The punctuation characters stripped by `str.rstrip(".,;:!?)")` in both
link extractors. -/
def punctChars : List Char := ['.', ',', ';', ':', '!', '?', ')']

/-- Remove trailing characters of `punctChars` from a character list. -/
def rstripPunctAux : List Char → List Char
  | [] => []
  | c :: cs =>
    match rstripPunctAux cs with
    | [] => if c ∈ punctChars then [] else [c]
    | c2 :: cs2 => c :: c2 :: cs2

/-- Python `s.rstrip(".,;:!?)")`. -/
def rstripPunct (s : String) : String := ⟨rstripPunctAux s.data⟩

/-! ## 32-bit arithmetic for the md5 embedding

`hashlib.md5` is used by two adapters to derive fallback message ids; it is
embedded as the full MD5 algorithm over `Nat` with explicit reduction
`% 2 ^ 32`.  The bitwise operations are defined positionally so that every
definition is executable by the kernel. -/

/-- Reduction modulo `2 ^ 32`. -/
def m32 (n : Nat) : Nat := n % 4294967296

/-- Bitwise and of two 32-bit values. -/
def bitAnd32 (a b : Nat) : Nat :=
  (List.range 32).foldl (fun acc i => acc + a / 2 ^ i % 2 * (b / 2 ^ i % 2) * 2 ^ i) 0

/-- Bitwise or of two 32-bit values. -/
def bitOr32 (a b : Nat) : Nat :=
  (List.range 32).foldl (fun acc i => acc + max (a / 2 ^ i % 2) (b / 2 ^ i % 2) * 2 ^ i) 0

/-- Bitwise exclusive or of two 32-bit values. -/
def bitXor32 (a b : Nat) : Nat :=
  (List.range 32).foldl (fun acc i => acc + (a / 2 ^ i + b / 2 ^ i) % 2 * 2 ^ i) 0

/-- Bitwise complement within 32 bits. -/
def bitNot32 (a : Nat) : Nat := 4294967295 - m32 a

/-- Left rotation of a 32-bit value by `s` positions. -/
def rotl32 (x s : Nat) : Nat := m32 (x * 2 ^ s) + m32 x / 2 ^ (32 - s)

/-! ## MD5 (RFC 1321), as called through `hashlib.md5(...).hexdigest()` -/

/-- The 64 MD5 sine-derived constants. -/
def md5K : List Nat :=
  [0xd76aa478, 0xe8c7b756, 0x242070db, 0xc1bdceee,
   0xf57c0faf, 0x4787c62a, 0xa8304613, 0xfd469501,
   0x698098d8, 0x8b44f7af, 0xffff5bb1, 0x895cd7be,
   0x6b901122, 0xfd987193, 0xa679438e, 0x49b40821,
   0xf61e2562, 0xc040b340, 0x265e5a51, 0xe9b6c7aa,
   0xd62f105d, 0x02441453, 0xd8a1e681, 0xe7d3fbc8,
   0x21e1cde6, 0xc33707d6, 0xf4d50d87, 0x455a14ed,
   0xa9e3e905, 0xfcefa3f8, 0x676f02d9, 0x8d2a4c8a,
   0xfffa3942, 0x8771f681, 0x6d9d6122, 0xfde5380c,
   0xa4beea44, 0x4bdecfa9, 0xf6bb4b60, 0xbebfbc70,
   0x289b7ec6, 0xeaa127fa, 0xd4ef3085, 0x04881d05,
   0xd9d4d039, 0xe6db99e5, 0x1fa27cf8, 0xc4ac5665,
   0xf4292244, 0x432aff97, 0xab9423a7, 0xfc93a039,
   0x655b59c3, 0x8f0ccc92, 0xffeff47d, 0x85845dd1,
   0x6fa87e4f, 0xfe2ce6e0, 0xa3014314, 0x4e0811a1,
   0xf7537e82, 0xbd3af235, 0x2ad7d2bb, 0xeb86d391]

/-- The 64 MD5 per-round left-rotation amounts. -/
def md5S : List Nat :=
  [7, 12, 17, 22, 7, 12, 17, 22, 7, 12, 17, 22, 7, 12, 17, 22,
   5, 9, 14, 20, 5, 9, 14, 20, 5, 9, 14, 20, 5, 9, 14, 20,
   4, 11, 16, 23, 4, 11, 16, 23, 4, 11, 16, 23, 4, 11, 16, 23,
   6, 10, 15, 21, 6, 10, 15, 21, 6, 10, 15, 21, 6, 10, 15, 21]

/-- The running MD5 state (four 32-bit words). -/
structure MD5State where
  a : Nat
  b : Nat
  c : Nat
  d : Nat
deriving DecidableEq, Repr

/-- The MD5 round function for step `r`. -/
def md5F (r b c d : Nat) : Nat :=
  if r < 16 then bitOr32 (bitAnd32 b c) (bitAnd32 (bitNot32 b) d)
  else if r < 32 then bitOr32 (bitAnd32 d b) (bitAnd32 (bitNot32 d) c)
  else if r < 48 then bitXor32 b (bitXor32 c d)
  else bitXor32 c (bitOr32 b (bitNot32 d))

/-- The MD5 message-word index for step `r`. -/
def md5G (r : Nat) : Nat :=
  if r < 16 then r
  else if r < 32 then (5 * r + 1) % 16
  else if r < 48 then (3 * r + 5) % 16
  else 7 * r % 16

/-- One of the 64 MD5 steps over a 16-word block. -/
def md5Step (w : List Nat) (st : MD5State) (r : Nat) : MD5State :=
  let f := md5F r st.b st.c st.d
  let nb := m32 (st.b + rotl32 (m32 (st.a + f + md5K.getD r 0 + w.getD (md5G r) 0)) (md5S.getD r 0))
  ⟨st.d, nb, st.b, st.c⟩

/-- Read a 64-byte block as 16 little-endian 32-bit words. -/
def blockWords (bytes : List Nat) : List Nat :=
  (List.range 16).map fun i =>
    bytes.getD (4 * i) 0 + 256 * bytes.getD (4 * i + 1) 0 +
      65536 * bytes.getD (4 * i + 2) 0 + 16777216 * bytes.getD (4 * i + 3) 0

/-- Process one 64-byte block. -/
def md5ProcessBlock (st : MD5State) (block : List Nat) : MD5State :=
  let w := blockWords block
  let r := (List.range 64).foldl (md5Step w) st
  ⟨m32 (st.a + r.a), m32 (st.b + r.b), m32 (st.c + r.c), m32 (st.d + r.d)⟩

/-- MD5 padding: a 0x80 byte, zeros to 56 mod 64, then the bit length as
eight little-endian bytes. -/
def md5Pad (msg : List Nat) : List Nat :=
  let len := msg.length
  let zeros := (56 + 64 - (len + 1) % 64) % 64
  let bitLen := 8 * len % 2 ^ 64
  msg ++ [128] ++ List.replicate zeros 0 ++ (List.range 8).map fun i => bitLen / 2 ^ (8 * i) % 256

/-- Fold the block function over `n` consecutive 64-byte blocks. -/
def md5Fold : Nat → MD5State → List Nat → MD5State
  | 0, st, _ => st
  | n + 1, st, bytes => md5Fold n (md5ProcessBlock st (bytes.take 64)) (bytes.drop 64)

/-- The MD5 initialization vector. -/
def md5Init : MD5State := ⟨0x67452301, 0xefcdab89, 0x98badcfe, 0x10325476⟩

/-- Lowercase hexadecimal digit. -/
def hexDigit (n : Nat) : Char :=
  if n < 10 then Char.ofNat (48 + n) else Char.ofNat (87 + n)

/-- Hex rendering of one 32-bit word, least-significant byte first. -/
def word32HexLE (w : Nat) : List Char :=
  (List.range 4).flatMap fun i =>
    [hexDigit (w / 2 ^ (8 * i) % 256 / 16), hexDigit (w / 2 ^ (8 * i) % 16)]

/-- `hashlib.md5(bytes).hexdigest()` on a byte list. -/
def md5hexBytes (msg : List Nat) : String :=
  let padded := md5Pad msg
  let st := md5Fold (padded.length / 64) md5Init padded
  ⟨word32HexLE st.a ++ word32HexLE st.b ++ word32HexLE st.c ++ word32HexLE st.d⟩

/-- UTF-8 encoding of one character (Python `str.encode()`is UTF-8). -/
def utf8Bytes (c : Char) : List Nat :=
  let n := c.toNat
  if n < 128 then [n]
  else if n < 2048 then [192 + n / 64, 128 + n % 64]
  else if n < 65536 then [224 + n / 4096, 128 + n / 64 % 64, 128 + n % 64]
  else [240 + n / 262144, 128 + n / 4096 % 64, 128 + n / 64 % 64, 128 + n % 64]

/-- UTF-8 bytes of a string (Python `s.encode()`). -/
def strBytes (s : String) : List Nat := s.data.foldr (fun c acc => utf8Bytes c ++ acc) []

/-- `hashlib.md5(s.encode()).hexdigest()`. -/
def md5hex (s : String) : String := md5hexBytes (strBytes s)

/-! ## The normalized message (`ServiceMessage`, services/base.py lines 9-34)

Only the fields the verified properties consult are carried; `attachments`
and `raw` do not influence any embedded code path except through the
adapter-specific conversion functions, which are embedded separately. -/

/-- Provider-neutral message record. -/
structure SMsg where
  id : String
  sender : String
  subject : String
  text : String
  html : Option String := none
deriving DecidableEq, Repr

/-! ## The hardcoded href scanner of both extractors

Both `extract_links` variants additionally scan the html body with the fixed
pattern `href=['"]?(https://www\.temi\.com/editor/t/[^'" >]+)` under
`re.IGNORECASE`.  That single concrete regular expression is embedded as an
executable scanner below; the caller-supplied text pattern stays a parameter
(`findall`), since arbitrary Python regexes are not embedded. -/

/-- The Temi prefix hardcoded in both extractors. -/
def temiPrefix : String := "https://www.temi.com/editor/t/"

/-- Case-insensitive match of the literal pattern `p` (given in lowercase) at
the head of `cs`; on success, the consumed original characters and the rest. -/
def matchLitCI : List Char → List Char → Option (List Char × List Char)
  | [], cs => some ([], cs)
  | _ :: _, [] => none
  | p :: ps, c :: cs =>
    if lowChar c = p then
      match matchLitCI ps cs with
      | some (tk, rest) => some (c :: tk, rest)
      | none => none
    else none

/-- The characters excluded by the character class of the href pattern. -/
def hrefStopChars : List Char := ['\'', '"', ' ', '>']

/-- Greedy run of characters outside `hrefStopChars`, as (run, rest). -/
def takeRun : List Char → List Char × List Char
  | [] => ([], [])
  | c :: cs =>
    if c ∈ hrefStopChars then ([], c :: cs)
    else
      let p := takeRun cs
      (c :: p.1, p.2)

/-- Consume the optional quote (`['"]?`) of the href pattern; the greedy
optional quantifier never needs backtracking here because the prefix that
must follow starts with `h`, which is not a quote. -/
def skipQuote : List Char → List Char
  | c :: cs2 => if c ∈ ['\'', '"'] then cs2 else c :: cs2
  | [] => []

/-- Attempt of the href pattern at the head of `cs`: literal `href=` (case
insensitive), an optional quote, the Temi prefix (case insensitive), then a
nonempty greedy run outside the stop characters.  On success, the captured
group and the remainder after the whole match. -/
def matchHrefAt (cs : List Char) : Option (String × List Char) :=
  match matchLitCI "href=".data cs with
  | none => none
  | some (_, rest1) =>
    match matchLitCI temiPrefix.data (skipQuote rest1) with
    | none => none
    | some (pfx, rest3) =>
      if (takeRun rest3).1.isEmpty then none
      else some (⟨pfx ++ (takeRun rest3).1⟩, (takeRun rest3).2)

/-- Leftmost, non-overlapping scan (re.findall semantics).  `fuel` bounds the
recursion; it is instantiated with the input length, which is always enough
because each step consumes at least one character (`hrefFindallAux_congr`). -/
def hrefFindallAux : Nat → List Char → List String
  | 0, _ => []
  | _ + 1, [] => []
  | fuel + 1, c :: cs =>
    match matchHrefAt (c :: cs) with
    | some (link, rest) => link :: hrefFindallAux fuel rest
    | none => hrefFindallAux fuel cs

/-- Embedding of the html scan
`re.findall(html_pattern, html, re.IGNORECASE)` of both extractors. -/
def hrefFindall (s : String) : List String := hrefFindallAux s.data.length s.data

/-! ## The two `extract_links` implementations -/

/-- One element of a `re.findall` result: a plain string for a pattern with
at most one group, a tuple of group captures otherwise. -/
inductive ReMatch where
  | str (s : String)
  | tup (ss : List String)
deriving DecidableEq, Repr

/-- The scanned text: `message.text or message.html or ""`. -/
def pyTextOf (m : SMsg) : String :=
  if m.text ≠ "" then m.text else if optTruthy m.html then m.html.getD "" else ""

/-- Links contributed by the text scan of `BaseEmailService.extract_links`
(services/base.py lines 114-122): tuple matches are flattened unfiltered;
string matches are right-stripped and kept only with the exact Temi prefix. -/
def svcTextLinks (ms : List ReMatch) : List String :=
  ms.flatMap fun m =>
    match m with
    | .tup ss => ss.filter (fun s => s ≠ "")
    | .str s =>
      if s ≠ "" then
        if pyStartsWith (rstripPunct s) temiPrefix then [rstripPunct s] else []
      else []

/-- Embedding of `BaseEmailService.extract_links` (services/base.py lines
96-131).  `findall` is the semantics of `re.findall(pattern, ·,
re.IGNORECASE)` for the caller-supplied (or default) text pattern;
`list(set(links))` is modeled as `List.dedup` (same element set, no
duplicates; CPython's set iteration order is not part of the contract). -/
def extract_links_svc (findall : String → List ReMatch) (message : SMsg) : List String :=
  if pyTextOf message = "" then []
  else
    (svcTextLinks (findall (pyTextOf message)) ++
      (if optTruthy message.html then hrefFindall (message.html.getD "") else [])).dedup

/-- Links contributed by the text scan of `MessageProcessor.extract_links`
(base.py lines 92-103): both branches keep only matches containing
`temi.com/editor/t/` as a substring and right-strip them. -/
def mpTextLinks (ms : List ReMatch) : List String :=
  ms.flatMap fun m =>
    match m with
    | .tup ss =>
      (ss.filter fun s => s != "" && pyContains s "temi.com/editor/t/").map rstripPunct
    | .str s =>
      if s != "" && pyContains s "temi.com/editor/t/" then [rstripPunct s] else []

/-- Embedding of `MessageProcessor.extract_links` (base.py lines 78-112). -/
def extract_links_mp (findall : String → List ReMatch) (message : SMsg) : List String :=
  if pyTextOf message = "" then []
  else
    (mpTextLinks (findall (pyTextOf message)) ++
      (if optTruthy message.html then hrefFindall (message.html.getD "") else [])).dedup

/-! ## The polling monitor loop (MailTM and GuerrillaMail)

`MailTMService.monitor_messages` (mailtm_service.py lines 189-236) and
`GuerrillaMailService.monitor_messages` (guerrillamail_service.py lines
275-322) contain the same `poll_for_messages` body.  A monitoring session is
embedded as a fold of one tick per successful fetch result; a fetch that
raises only waits and changes no state, so the fetch sequence quantifies over
the successful fetches.  The callback is modeled as `cb : Nat → String →
Bool`, mapping the invocation counter and the message id to whether the
callback returns normally (`true`) or raises (`false`); a raised callback
exception propagates out of the delivery `for` loop into the tick's `except
Exception` handler, aborting the rest of the tick. -/

/-- Session state of one poll loop: the `known_ids` set (as the list of its
elements), the callback invocations so far, and the invocation counter. -/
structure PollState where
  known : List String
  delivered : List SMsg
  calls : Nat
deriving DecidableEq, Repr

/-- Invoke the callback on each message in order until one raises: returns
the messages passed to the callback, the next counter value, and whether all
invocations returned normally. -/
def deliverSeq (cb : Nat → String → Bool) : Nat → List SMsg → List SMsg × Nat × Bool
  | k, [] => ([], k, true)
  | k, m :: ms =>
    if cb k m.id then (m :: (deliverSeq cb (k + 1) ms).1, (deliverSeq cb (k + 1) ms).2)
    else ([m], k + 1, false)

/-- The set comprehension `current_ids = {msg.id for msg in messages}`. -/
def currentIds (msgs : List SMsg) : List String := (msgs.map SMsg.id).dedup

/-- The set difference `new_ids = current_ids - self._known_message_ids`. -/
def newIdsOf (st : PollState) (msgs : List SMsg) : List String :=
  (currentIds msgs).filter fun i => ¬ st.known.contains i

/-- The delivery candidates of a non-first poll: the fetched messages whose
id is in `new_ids`, in fetch order. -/
def newMsgsOf (st : PollState) (msgs : List SMsg) : List SMsg :=
  msgs.filter fun m => (newIdsOf st msgs).contains m.id

/-- One iteration of `poll_for_messages` on a successful fetch `msgs`.  On
the first poll (`known_ids` empty) all current ids are marked known before
every message is delivered; otherwise only messages with new ids are
delivered and `known_ids.update(new_ids)` runs after the whole delivery
loop, hence is skipped when a callback raised. -/
def pollTick (cb : Nat → String → Bool) (st : PollState) (msgs : List SMsg) : PollState :=
  if st.known.isEmpty then
    { known := st.known ++ currentIds msgs
      delivered := st.delivered ++ (deliverSeq cb st.calls msgs).1
      calls := (deliverSeq cb st.calls msgs).2.1 }
  else
    { known :=
        if (deliverSeq cb st.calls (newMsgsOf st msgs)).2.2 then st.known ++ newIdsOf st msgs
        else st.known
      delivered := st.delivered ++ (deliverSeq cb st.calls (newMsgsOf st msgs)).1
      calls := (deliverSeq cb st.calls (newMsgsOf st msgs)).2.1 }

/-- A whole monitoring session of the poll loop over the successful fetch
results, starting from the cleared state of `monitor_messages`. -/
def pollRun (cb : Nat → String → Bool) (fetches : List (List SMsg)) : PollState :=
  fetches.foldl (pollTick cb) ⟨[], [], 0⟩

/-! ## The XTempMail monitor (xtempmail_service.py)

`XTempMailService.monitor_messages` (lines 164-267) flushes the existing
messages (`_process_existing_messages`, lines 268-300), then reacts to push
events (`handle_new_message`, lines 195-210) and periodic re-checks
(`_periodic_recheck`, lines 320-370).  The asyncio flow is cooperative; a
session is embedded as the initial flush followed by a sequence of
events, each handled atomically. -/

/-- Session state of the xtempmail monitor: `_processed_message_ids`, the
callback invocations, and the invocation counter. -/
structure XtState where
  processed : List String
  delivered : List SMsg
  calls : Nat
deriving DecidableEq, Repr

/-- One event within an xtempmail monitoring session. -/
inductive XtEvent where
  | push (m : SMsg)
  | recheck (msgs : List SMsg)
deriving DecidableEq, Repr

/-- Mark the id as processed and invoke the callback: the shared shape of
all three xtempmail delivery sites, each of which adds the id to
`_processed_message_ids` directly before `await message_callback(message)`. -/
def xtDeliver (st : XtState) (m : SMsg) : XtState :=
  { processed := st.processed ++ [m.id]
    delivered := st.delivered ++ [m]
    calls := st.calls + 1 }

/-- Embedding of `_process_existing_messages`: per message, skip if already
processed, else add the id and deliver; the surrounding try/except stops the
whole flush at the first callback exception. -/
def xtFlush (cb : Nat → String → Bool) : XtState → List SMsg → XtState
  | st, [] => st
  | st, m :: ms =>
    if st.processed.contains m.id then xtFlush cb st ms
    else if cb st.calls m.id then xtFlush cb (xtDeliver st m) ms else xtDeliver st m

/-- Embedding of `handle_new_message`: skip if processed, else add the id
and then deliver; its own try/except confines a callback exception to this
event, leaving the state the same whether the callback raised or not. -/
def xtPush (_cb : Nat → String → Bool) (st : XtState) (m : SMsg) : XtState :=
  if st.processed.contains m.id then st else xtDeliver st m

/-- Delivery loop of one `_periodic_recheck` iteration over the pre-filtered
batch: add the id, then deliver; a callback exception aborts the rest of the
batch (caught by the while-level except). -/
def xtRecheckLoop (cb : Nat → String → Bool) : XtState → List SMsg → XtState
  | st, [] => st
  | st, m :: ms =>
    if cb st.calls m.id then xtRecheckLoop cb (xtDeliver st m) ms else xtDeliver st m

/-- One `_periodic_recheck` iteration on a successful fetch: the unprocessed
messages are collected first, then delivered. -/
def xtRecheck (cb : Nat → String → Bool) (st : XtState) (msgs : List SMsg) : XtState :=
  xtRecheckLoop cb st (msgs.filter fun m => ¬ st.processed.contains m.id)

/-- A whole xtempmail monitoring session: initial flush of the existing
messages, then the observed events in order. -/
def xtRun (cb : Nat → String → Bool) (initial : List SMsg) (events : List XtEvent) : XtState :=
  events.foldl
    (fun st e =>
      match e with
      | .push m => xtPush cb st m
      | .recheck msgs => xtRecheck cb st msgs)
    (xtFlush cb ⟨[], [], 0⟩ initial)

/-! ## GuerrillaMail message conversion (guerrillamail_service.py lines 335-386) -/

/-- A JSON scalar as occurring in a Guerrilla Mail payload. -/
inductive JVal where
  | s (v : String)
  | n (v : Int)
deriving DecidableEq, Repr

/-- Decimal digit list of a natural number (`fuel` bounds the recursion and
is instantiated with a value that always suffices). -/
def natDigits : Nat → Nat → List Char
  | 0, _ => []
  | fuel + 1, n => if n < 10 then [hexDigit n] else natDigits fuel (n / 10) ++ [hexDigit (n % 10)]

/-- Decimal rendering of a natural number. -/
def natRepr (n : Nat) : String := ⟨natDigits (n + 1) n⟩

/-- Python `str()` / `repr()` of an int. -/
def intRepr (i : Int) : String :=
  if i < 0 then "-" ++ natRepr i.natAbs else natRepr i.natAbs

/-- Python `str()` of a payload scalar. -/
def jStr : JVal → String
  | .s v => v
  | .n v => intRepr v

/-- `email_data.get(k)` on a payload modeled as an association list with
distinct keys. -/
def dGet (d : List (String × JVal)) (k : String) : Option JVal :=
  (d.find? fun p => p.1 = k).map (·.2)

/-- `str(email_data.get(k, dflt))` for string-rendered reads. -/
def gGetStr (d : List (String × JVal)) (k dflt : String) : String :=
  match dGet d k with
  | some v => jStr v
  | none => dflt

/-- One character under `json.dumps` default (ensure_ascii) escaping;
characters above the basic multilingual plane (which Python escapes as a
surrogate pair) do not occur in the payloads considered here. -/
def jsonEscapeChar (c : Char) : List Char :=
  if c = '"' then ['\\', '"']
  else if c = '\\' then ['\\', '\\']
  else if c = Char.ofNat 10 then ['\\', 'n']
  else if c = Char.ofNat 9 then ['\\', 't']
  else if c = Char.ofNat 13 then ['\\', 'r']
  else if c = Char.ofNat 8 then ['\\', 'b']
  else if c = Char.ofNat 12 then ['\\', 'f']
  else if c.toNat < 32 ∨ 127 ≤ c.toNat then
    ['\\', 'u', hexDigit (c.toNat / 4096 % 16), hexDigit (c.toNat / 256 % 16),
     hexDigit (c.toNat / 16 % 16), hexDigit (c.toNat % 16)]
  else [c]

/-- JSON string-content escaping. -/
def jsonEscape (s : String) : String := ⟨s.data.flatMap jsonEscapeChar⟩

/-- JSON rendering of a scalar. -/
def jsonRender : JVal → String
  | .s v => "\"" ++ jsonEscape v ++ "\""
  | .n v => intRepr v

/-- Lexicographic code-point comparison of character lists (Python `str`
comparison). -/
def strLexLtb : List Char → List Char → Bool
  | [], [] => false
  | [], _ :: _ => true
  | _ :: _, [] => false
  | a :: as, b :: bs =>
    if a.toNat < b.toNat then true
    else if b.toNat < a.toNat then false
    else strLexLtb as bs

/-- Python `a < b` on strings. -/
def pyStrLt (a b : String) : Bool := strLexLtb a.data b.data

/-- Insertion into a key-sorted association list. -/
def insertByKey (p : String × JVal) : List (String × JVal) → List (String × JVal)
  | [] => [p]
  | q :: qs => if pyStrLt q.1 p.1 then q :: insertByKey p qs else p :: q :: qs

/-- Key-sorting of a payload. -/
def sortByKey (d : List (String × JVal)) : List (String × JVal) :=
  d.foldr insertByKey []

/-- Join with a separator (`sep.join(parts)`). -/
def joinSep (sep : String) : List String → String
  | [] => ""
  | [x] => x
  | x :: y :: xs => x ++ sep ++ joinSep sep (y :: xs)

/-- `json.dumps(email_data, sort_keys=True)` with the default separators. -/
def jsonDumpsSorted (d : List (String × JVal)) : String :=
  "\x7b" ++
    joinSep ", "
      ((sortByKey d).map fun p => "\"" ++ jsonEscape p.1 ++ "\": " ++ jsonRender p.2) ++
    "\x7d"

/-- `str(email_data.get("mail_id", ""))` (line 340). -/
def gMailId (d : List (String × JVal)) : String := gGetStr d "mail_id" ""

/-- Message id of the Guerrilla Mail conversion (lines 339-346): the
provider `mail_id` when truthy, otherwise
`hashlib.md5(json.dumps(email_data, sort_keys=True).encode()).hexdigest()`. -/
def guerrillaMsgId (d : List (String × JVal)) : String :=
  let mid := gMailId d
  if mid ≠ "" then mid else md5hex (jsonDumpsSorted d)

/-- Embedding of GuerrillaMail `_convert_to_servicemessage` on the consulted
fields (`html` is always `None`, line 358). -/
def guerrillaConvert (d : List (String × JVal)) : SMsg :=
  { id := guerrillaMsgId d
    sender := gGetStr d "mail_from" ""
    subject := gGetStr d "mail_subject" "No Subject"
    text :=
      let b := gGetStr d "mail_body" ""
      if b ≠ "" then b else gGetStr d "mail_excerpt" ""
    html := none }

/-! ## XTempMail message conversion (xtempmail_service.py lines 372-426) -/

/-- The attributes of a raw xtempmail message that the conversion consults;
`none` models an absent attribute. -/
structure XtRaw where
  id : Option String
  from_mail : Option String
  senderAttr : Option String
  subject : Option String
  text : Option String
  html : Option String
deriving DecidableEq, Repr

/-- Sender extraction (lines 384-388): `from_mail` first, then `sender`. -/
def xtSender (r : XtRaw) : String :=
  match r.from_mail with
  | some v => v
  | none =>
    match r.senderAttr with
    | some v => v
    | none => ""

/-- The hashed content f-string of the fallback id (line 408):
`f"{sender}-{subject}-{text}"` with the attribute defaults `""`. -/
def xtContent (r : XtRaw) : String :=
  xtSender r ++ "-" ++ r.subject.getD "" ++ "-" ++ r.text.getD ""

/-- Message id (lines 402-410): `getattr(raw, "id", None)` when truthy,
otherwise the md5 of `xtContent`. -/
def xtMsgId (r : XtRaw) : String :=
  match r.id with
  | some i => if i ≠ "" then i else md5hex (xtContent r)
  | none => md5hex (xtContent r)

/-- Embedding of XTempMail `_convert_to_servicemessage` on the consulted
fields (the html attribute defaults to `""`, line 417). -/
def xtConvert (r : XtRaw) : SMsg :=
  { id := xtMsgId r
    sender := xtSender r
    subject := r.subject.getD "No Subject"
    text := r.text.getD ""
    html := some (r.html.getD "") }

/-! ## Account restoration -/

/-- MailTM stored account data: the fields `restore_account` consults. -/
structure MailTMData where
  token : Option String
  address : String
deriving DecidableEq, Repr

/-- Environment of one `MailTMService.restore_account` call: the provider's
response to `get_me(token)` (`.ok address` or `.error message`). -/
structure MailTMEnv where
  getMe : String → Except String String

/-- Embedding of `MailTMService.restore_account` (mailtm_service.py lines
65-91): a missing or empty token raises `ValueError`, a failing `get_me`
raises `Exception`; only a successful validation refreshes the address in
place and returns the data. -/
def mailtm_restore (env : MailTMEnv) (d : MailTMData) : Except PyExc MailTMData :=
  match d.token with
  | none => .error (.valueError "No token in account data")
  | some t =>
    if t = "" then .error (.valueError "No token in account data")
    else
      match env.getMe t with
      | .ok addr => .ok { d with address := addr }
      | .error e => .error (.exception ("Failed to restore MailTM account: " ++ e))

/-- GuerrillaMail stored account data. -/
structure GData where
  session_id : Option String
  address : Option String
  email_timestamp : Int
deriving DecidableEq, Repr

/-- Environment of one `GuerrillaMailService.restore_account` call:
`now` is `int(datetime.now().timestamp())`, `createResult` the outcome of a
`create_account()` call, `listStatus` the HTTP status of the session-testing
`get_email_list` request, and `renewResult` the `set_email_user` response
per local part — `some (email_addr, sid_token, email_timestamp)` for a 200
response carrying an address, `none` for every failing shape. -/
structure GEnv where
  now : Int
  createResult : Except PyExc GData
  listStatus : Nat
  renewResult : String → Option (String × String × Int)

/-- Embedding of `_renew_session` (guerrillamail_service.py lines 133-171):
a missing address or any renewal failure falls back to `create_account`. -/
def g_renew (env : GEnv) (d : GData) : Except PyExc GData :=
  match d.address with
  | none => env.createResult
  | some addr =>
    if addr = "" then env.createResult
    else
      match env.renewResult ((addr.splitOn "@").headD addr) with
      | some r => .ok { address := some r.1, session_id := some r.2.1, email_timestamp := r.2.2 }
      | none => env.createResult

/-- Embedding of `GuerrillaMailService.restore_account` (lines 80-131).
Exceptions raised inside the try block (including by a nested
`create_account`) are caught by the outer handler, which calls
`create_account` once more; with a deterministic per-call environment both
calls yield `env.createResult`, so every fallback path collapses to it. -/
def guerrilla_restore (env : GEnv) (d : GData) : Except PyExc GData :=
  if ¬ optTruthy d.session_id ∨ ¬ optTruthy d.address then env.createResult
  else if d.email_timestamp + 3600 - 5 ≤ env.now then g_renew env d
  else if env.listStatus ≠ 200 then env.createResult
  else .ok d

/-! ## Service registry (config.py) -/

/-- An adapter class as stored by the registry: its class name and its
declared `SERVICE_NAME`. -/
structure SvcClass where
  className : String
  serviceName : String
deriving DecidableEq, Repr

/-- A freshly constructed adapter instance (`service_class()`). -/
structure SvcInstance where
  cls : SvcClass
deriving DecidableEq, Repr

/-- Dict assignment `d[k] = v` on an association-list model. -/
def regInsert (k : String) (v : SvcClass) (r : List (String × SvcClass)) :
    List (String × SvcClass) :=
  if r.any fun p => p.1 = k then r.map fun p => if p.1 = k then (k, v) else p
  else r ++ [(k, v)]

/-- `ServiceRegistry.register` (config.py lines 13-21): the lowercased
lookup name, and additionally the lowercased `SERVICE_NAME` if distinct. -/
def registerSvc (name : String) (c : SvcClass) (r : List (String × SvcClass)) :
    List (String × SvcClass) :=
  let r1 := regInsert (pyLower name) c r
  let sn := pyLower c.serviceName
  if sn ≠ "" ∧ sn ≠ pyLower name then regInsert sn c r1 else r1

/-- The XTempMail adapter class. -/
def xtempmailClass : SvcClass := ⟨"XTempMailService", "xtempmail"⟩

/-- The MailTM adapter class. -/
def mailtmClass : SvcClass := ⟨"MailTMService", "mailtm"⟩

/-- The registry as built at import time (config.py lines 50-52). -/
def theRegistry : List (String × SvcClass) :=
  registerSvc "mailtm" mailtmClass (registerSvc "xtempmail" xtempmailClass [])

/-- `ServiceRegistry.get_service` (lines 23-27): case-insensitive lookup. -/
def get_service (r : List (String × SvcClass)) (name : String) : Option SvcClass :=
  (r.find? fun p => p.1 = pyLower name).map (·.2)

/-- `ServiceRegistry.create_service` (lines 29-35): raise `ValueError` on a
lookup miss, otherwise construct a fresh instance of the class. -/
def create_service (r : List (String × SvcClass)) (name : String) : Except PyExc SvcInstance :=
  match get_service r name with
  | none => .error (.valueError ("Unknown service: " ++ name))
  | some c => .ok ⟨c⟩

/-! ## CLI storage calls (cli.py, storage.py) -/

/-- Python positional-arity check of a method call: a call with more
positional arguments than declared parameters, or fewer than those without
defaults, raises `TypeError` before the body runs. -/
def pyCallCheck (minA maxA given : Nat) : Except PyExc Unit :=
  if given < minA ∨ maxA < given then .error .typeError else .ok ()

/-- A stored account record (the fields the CLI paths consult). -/
structure AccountRec where
  service : Option String
  address : Option String
deriving DecidableEq, Repr

/-- `AccountStorage.get_account_by_index` body (storage.py lines 65-73):
1-based from the most recent (`accounts[-index]`). -/
def get_account_by_index (accounts : List AccountRec) (index : Int) : Option AccountRec :=
  if index ≤ 0 ∨ (accounts.length : Int) < index then none
  else accounts.get? (accounts.length - index.toNat)

/-- Python list slice `l[start:]`. -/
def pySliceFrom (l : List AccountRec) (start : Int) : List AccountRec :=
  if start < 0 then l.drop (l.length - (-start).toNat) else l.drop start.toNat

/-- `AccountStorage.get_recent_accounts` body (storage.py lines 75-78):
`accounts[-count:]` on a nonempty store. -/
def get_recent_accounts (accounts : List AccountRec) (count : Int) : List AccountRec :=
  if accounts.isEmpty then [] else pySliceFrom accounts (-count)

/-- Observable outcome of a CLI command in this embedding: how many times an
adapter `restore_account` ran, and how many user-facing lines printed. -/
structure CliTrace where
  restoreCalls : Nat
  printedLines : Nat
deriving DecidableEq, Repr

/-- Embedding of `TempMailCLI.use_account` (cli.py lines 239-287).  Line 246
calls `self.storage.get_account_by_index(args.index, args.service)` with two
positional arguments against the one-parameter signature of storage.py line
65; the call stands before the try block, so a `TypeError` propagates out of
`use_account`.  The continuation is embedded after the arity check: lookup,
then the not-found or no-service messages, else the restore-and-monitor
path. -/
def use_account (accounts : List AccountRec) (index : Int) (_svcFilter : Option String) :
    Except PyExc CliTrace :=
  match pyCallCheck 1 1 2 with
  | .error e => .error e
  | .ok _ =>
    match get_account_by_index accounts index with
    | none => .ok ⟨0, 1⟩
    | some acc =>
      match acc.service with
      | none => .ok ⟨0, 1⟩
      | some _ => .ok ⟨1, 1⟩

/-- Embedding of `TempMailCLI.list_accounts` (cli.py lines 289-313).  Line
294 calls `self.storage.get_recent_accounts(count, service_filter)` with two
positional arguments against the one-parameter signature of storage.py line
75; `list_accounts` has no try block, so a `TypeError` propagates.  The
continuation prints either the not-found line or a header plus one line per
account. -/
def list_accounts (accounts : List AccountRec) (count : Int) (_svcFilter : Option String) :
    Except PyExc CliTrace :=
  match pyCallCheck 0 1 2 with
  | .error e => .error e
  | .ok _ =>
    let accs := get_recent_accounts accounts count
    if accs.isEmpty then .ok ⟨0, 1⟩ else .ok ⟨0, 1 + accs.length⟩

/-- The default action of `TempMailCLI.run` (cli.py lines 47-51) when no
subcommand was given: `list_accounts` with the defaults of lines 291-292. -/
def cli_default_action (accounts : List AccountRec) : Except PyExc CliTrace :=
  list_accounts accounts 10 none

/-! ## The monitoring wrapper (cli.py lines 329-390) -/

/-- Abstracted behavior of one `monitor_messages` call: after how many
seconds it would return on its own (`none` = it never returns on its own). -/
structure MonitorBehavior where
  completesAfter : Option Nat
deriving DecidableEq, Repr

/-- Exception (if any) raised by the awaited expression in the try block of
`start_monitoring`. -/
inductive TryOutcome where
  | normal
  | timeoutErr
  | keyboard
  | exc
deriving DecidableEq, Repr

/-- `asyncio.wait_for` at second granularity: `TimeoutError` iff the awaited
call does not complete within `timeout` seconds. -/
def waitFor (timeout : Nat) (b : MonitorBehavior) : TryOutcome :=
  match b.completesAfter with
  | some d => if d ≤ timeout then .normal else .timeoutErr
  | none => .timeoutErr

/-- Result of `start_monitoring`: the outcome after exception handling and
how often `stop_monitoring` ran. -/
structure MonitorRun where
  result : Except PyExc Unit
  stopCalls : Nat
deriving Repr

/-- The try/except/finally of cli.py lines 362-390: `asyncio.TimeoutError`,
`KeyboardInterrupt` and `Exception` are each caught and printed, and the
finally block calls `stop_monitoring()` exactly once on every path. -/
def monitorTryExceptFinally (o : TryOutcome) : MonitorRun :=
  match o with
  | .normal => ⟨.ok (), 1⟩
  | .timeoutErr => ⟨.ok (), 1⟩
  | .keyboard => ⟨.ok (), 1⟩
  | .exc => ⟨.ok (), 1⟩

/-- Embedding of `TempMailCLI.start_monitoring` (cli.py lines 361-390): with
a positive timeout the monitor call is wrapped in `asyncio.wait_for`; with
timeout 0 it is awaited directly, so the wrapper only returns when the
adapter itself does (`none` models a monitoring call that runs unbounded
until an outside interrupt). -/
def start_monitoring (timeout : Nat) (b : MonitorBehavior) : Option MonitorRun :=
  if 0 < timeout then some (monitorTryExceptFinally (waitFor timeout b))
  else
    match b.completesAfter with
    | some _ => some (monitorTryExceptFinally .normal)
    | none => none

/-! ## Concrete inputs used by the claim theorems -/

/-- Semantics of `re.findall` for the pattern `https://example\.com/x/y\.`
on the text of `cexMsgC5` (cross-checked against Python `re`). -/
def findallEx : String → List ReMatch := fun s =>
  if s = "https://example.com/x/y." then [ReMatch.str "https://example.com/x/y."] else []

/-- A message whose text is exactly the example URL of the specification,
with its trailing period. -/
def cexMsgC5 : SMsg :=
  { id := "m5", sender := "a", subject := "s", text := "https://example.com/x/y." }

/-- Semantics of the default pattern
`https://www\.temi\.com/editor/t/[^\s"'<>]+` on the text of `temiMsg`
(cross-checked against Python `re`). -/
def findallTemi : String → List ReMatch := fun s =>
  if s = "go https://www.temi.com/editor/t/x/y. now" then
    [ReMatch.str "https://www.temi.com/editor/t/x/y."]
  else []

/-- A message carrying a Temi link with a trailing period in its text. -/
def temiMsg : SMsg :=
  { id := "mt", sender := "a", subject := "s", text := "go https://www.temi.com/editor/t/x/y. now" }

/-- A message whose html carries an uppercase-scheme Temi href (matched by
the href pattern because of `re.IGNORECASE`). -/
def cexMsgC6 : SMsg :=
  { id := "m6", sender := "a", subject := "s", text := "x",
    html := some "href=\"HTTPS://WWW.TEMI.COM/editor/t/ABC\"" }

/-- A message with id `"x"`; one fetch batch may contain two messages with
the same id (for instance two Guerrilla Mail payloads without `mail_id` and
with identical content normalize to the same fallback hash id). -/
def dupMsg : SMsg := { id := "x", sender := "a", subject := "s", text := "t" }

/-- Three distinct-id messages for the poll-loop runs. -/
def cexM1 : SMsg := { id := "1", sender := "a", subject := "s", text := "t" }

/-- Second message. -/
def cexM2 : SMsg := { id := "2", sender := "a", subject := "s", text := "t" }

/-- Third message. -/
def cexM3 : SMsg := { id := "3", sender := "a", subject := "s", text := "t" }

/-- A callback that raises exactly on its third invocation (counter 2). -/
def cbFailThird : Nat → String → Bool := fun k _ => k != 2

/-- Fetch sequence: first poll sees message 1; the next two polls see
messages 1, 2, 3. -/
def cexFetches : List (List SMsg) :=
  [[cexM1], [cexM1, cexM2, cexM3], [cexM1, cexM2, cexM3]]

/-- A Guerrilla Mail payload without `mail_id`. -/
def cexD1 : List (String × JVal) :=
  [("mail_from", .s "a"), ("mail_subject", .s "s"), ("mail_body", .s "t"), ("mail_timestamp", .n 1)]

/-- The same payload with a different `mail_timestamp` only: identical
sender, subject and text. -/
def cexD2 : List (String × JVal) :=
  [("mail_from", .s "a"), ("mail_subject", .s "s"), ("mail_body", .s "t"), ("mail_timestamp", .n 2)]

/-- A MailTM environment whose `get_me` always succeeds: the restoration
failure below is caused by the stored data alone. -/
def cexMailTMEnv : MailTMEnv := ⟨fun _ => Except.ok "who@mail.tm"⟩

/-- Stored GuerrillaMail data used by witnesses. -/
def wGData : GData := ⟨some "sid", some "w@guerrillamail.com", 100⟩

/-- A GuerrillaMail environment whose `create_account` succeeds. -/
def wGEnv : GEnv := ⟨0, .ok wGData, 200, fun _ => none⟩

/-! ## Helper lemmas and claim theorems -/

set_option maxRecDepth 40000

/-- A raw message whose id attribute is absent or empty gets the hashed
fallback id. -/
theorem xtMsgId_fallback (r : XtRaw) (h : r.id.getD "" = "") :
    xtMsgId r = md5hex (xtContent r) := by
  unfold xtMsgId
  cases hi : r.id with
  | none => rfl
  | some i =>
    rw [hi, Option.getD_some] at h
    subst h
    rfl

/-- C4: every invocation of the CLI `use` command raises a `TypeError`
before any account is restored, and every invocation of the `list` command
(also the default action when no subcommand is given) raises a `TypeError`
before any account is printed: the storage calls of cli.py lines 246 and 294
pass a second service-filter argument that the one-parameter signatures of
storage.py lines 65 and 75 do not accept, so the embedded commands end in
`.error .typeError` with no trace (no restore call, no printed line). -/
theorem C4_use_and_list_raise_typeerror (accounts : List AccountRec) (index : Int)
    (svc : Option String) (count : Int) (svcF : Option String) :
    use_account accounts index svc = .error .typeError ∧
    list_accounts accounts count svcF = .error .typeError ∧
    cli_default_action accounts = .error .typeError :=
  ⟨rfl, rfl, rfl⟩

/-- C9: with a positive timeout that the adapter's `monitor_messages` call
does not meet, `start_monitoring` returns normally (the `TimeoutError` of
`asyncio.wait_for` is swallowed) and `stop_monitoring` runs exactly once;
with timeout 0 the monitor call is awaited without a bound, so a monitor
that never completes keeps running (no return) until interrupted. -/
theorem C9_timeout_returns_normally (t : Nat) (b b0 : MonitorBehavior) (ht : 0 < t)
    (_hslow : ∀ d, b.completesAfter = some d → t < d) (h0 : b0.completesAfter = none) :
    start_monitoring t b = some { result := .ok (), stopCalls := 1 } ∧
    start_monitoring 0 b0 = none := by
  constructor
  · unfold start_monitoring
    rw [if_pos ht]
    cases waitFor t b <;> rfl
  · unfold start_monitoring
    rw [if_neg (by omega)]
    rw [h0]

/-- Witness for C9 at timeout 1 and a monitor call that never completes. -/
theorem C9_timeout_returns_normally_witness :
    start_monitoring 1 ⟨none⟩ = some { result := .ok (), stopCalls := 1 } ∧
    start_monitoring 0 ⟨none⟩ = none :=
  C9_timeout_returns_normally 1 ⟨none⟩ ⟨none⟩ (by decide) (fun _ h => Option.noConfusion h) rfl

/-- C3 counterexample: `MailTMService.restore_account` on stored data with a
missing token raises `ValueError` past the adapter boundary instead of
falling back to `create_account`, even in an environment where every
provider call succeeds. -/
theorem C3_counterexample :
    mailtm_restore cexMailTMEnv { token := none, address := "old@mail.tm" } =
      .error (.valueError "No token in account data") := rfl

/-- C3 amended: only GuerrillaMail's `restore_account` never raises past the
adapter boundary — whenever its `create_account` call succeeds, restoration
returns a valid account for every stored datum (renewing in place or falling
back to account creation); MailTM's `restore_account` instead raises on
missing or invalid credentials. -/
theorem C3_amended (env : GEnv) (a : GData) (hc : env.createResult = .ok a) (d : GData) :
    ∃ r, guerrilla_restore env d = .ok r := by
  unfold guerrilla_restore
  split
  · exact ⟨a, hc⟩
  · split
    · unfold g_renew
      split
      · exact ⟨a, hc⟩
      · split
        · exact ⟨a, hc⟩
        · split
          · exact ⟨_, rfl⟩
          · exact ⟨a, hc⟩
    · split
      · exact ⟨a, hc⟩
      · exact ⟨d, rfl⟩

/-- Witness for C3 amended: restoring empty stored data in an environment
whose account creation succeeds yields a valid account. -/
theorem C3_amended_witness : ∃ r, guerrilla_restore wGEnv ⟨none, none, 0⟩ = .ok r :=
  C3_amended wGEnv wGData rfl ⟨none, none, 0⟩

/-- C7 counterexample: two Guerrilla Mail payloads without a provider
`mail_id` and with identical sender, subject and text (differing only in
`mail_timestamp`) normalize to different fallback ids, because the fallback
hashes the JSON serialization of the whole payload rather than the tuple
(sender, subject, text). -/
theorem C7_counterexample :
    gMailId cexD1 = "" ∧ gMailId cexD2 = "" ∧
    (guerrillaConvert cexD1).sender = (guerrillaConvert cexD2).sender ∧
    (guerrillaConvert cexD1).subject = (guerrillaConvert cexD2).subject ∧
    (guerrillaConvert cexD1).text = (guerrillaConvert cexD2).text ∧
    (guerrillaConvert cexD1).id ≠ (guerrillaConvert cexD2).id := by
  exact ⟨rfl, rfl, rfl, rfl, rfl, by decide⟩

/-- C7 amended: XTempMail's fallback id is a deterministic hash of the
tuple (sender, subject, text) — identical tuples yield identical ids — while
GuerrillaMail's fallback id is a deterministic hash of the sorted-keys JSON
serialization of the whole raw payload, so only identical payloads are
guaranteed identical ids there. -/
theorem C7_amended :
    (∀ r1 r2 : XtRaw, r1.id.getD "" = "" → r2.id.getD "" = "" →
      xtSender r1 = xtSender r2 → r1.subject.getD "" = r2.subject.getD "" →
      r1.text.getD "" = r2.text.getD "" → xtMsgId r1 = xtMsgId r2) ∧
    (∀ d : List (String × JVal), gMailId d = "" →
      guerrillaMsgId d = md5hex (jsonDumpsSorted d)) := by
  constructor
  · intro r1 r2 h1 h2 hs hsub ht
    have hc : xtContent r1 = xtContent r2 := by unfold xtContent; rw [hs, hsub, ht]
    have e1 : xtMsgId r1 = md5hex (xtContent r1) := xtMsgId_fallback r1 h1
    have e2 : xtMsgId r2 = md5hex (xtContent r2) := xtMsgId_fallback r2 h2
    rw [e1, e2, hc]
  · intro d hd
    unfold guerrillaMsgId
    rw [hd]
    simp

/-- Witness for C7 amended: an absent id attribute and an empty one hash the
same content, and a concrete id-less Guerrilla payload takes the hash path. -/
theorem C7_amended_witness :
    xtMsgId ⟨none, some "a", none, some "sub", some "body", none⟩ =
      xtMsgId ⟨some "", none, some "a", some "sub", some "body", none⟩ ∧
    guerrillaMsgId cexD1 = md5hex (jsonDumpsSorted cexD1) :=
  ⟨C7_amended.1 _ _ rfl rfl rfl rfl rfl, C7_amended.2 cexD1 rfl⟩

/-- C10: both `extract_links` implementations are pure — two calls on the
same message and pattern semantics give the same result — and the returned
sequence never contains a duplicate (set semantics of `list(set(links))`). -/
theorem C10_extract_links_pure_nodup (findall : String → List ReMatch) (message : SMsg) :
    extract_links_svc findall message = extract_links_svc findall message ∧
    (extract_links_svc findall message).Nodup ∧
    extract_links_mp findall message = extract_links_mp findall message ∧
    (extract_links_mp findall message).Nodup := by
  refine ⟨rfl, ?_, rfl, ?_⟩
  · unfold extract_links_svc
    split
    · exact List.nodup_nil
    · exact List.nodup_dedup _
  · unfold extract_links_mp
    split
    · exact List.nodup_nil
    · exact List.nodup_dedup _

/-- C1 counterexample: a single fetch whose batch carries two messages with
the same id makes the poll loop invoke the callback twice with that id, on
the initial flush itself — the dedup invariant fails for such fetch
sequences. -/
theorem C1_counterexample :
    ((pollRun (fun _ _ => true) [[dupMsg, dupMsg]]).delivered.map SMsg.id).count "x" = 2 := by
  decide

/-- C2 counterexample: in the poll loops of MailTM and GuerrillaMail the
batch's new ids are added to `known_ids` only after the whole delivery loop,
so when the callback raises on message 3 of the second poll, message 2 —
already delivered normally in that same poll — is delivered again on the
next poll: id `"2"` reaches the callback twice. -/
theorem C2_counterexample :
    (pollRun cbFailThird cexFetches).delivered.map SMsg.id = ["1", "2", "3", "2", "3"] ∧
    ((pollRun cbFailThird cexFetches).delivered.map SMsg.id).count "2" = 2 := by
  constructor
  · decide
  · decide

/-- C5 counterexample: the specification's example URL
`https://example.com/x/y.` is not extracted as its trimmed form — both
implementations discard it entirely (the service extractor requires the Temi
prefix after trimming, the message processor requires a Temi substring), so
the result is empty rather than `["https://example.com/x/y"]`. -/
theorem C5_counterexample :
    extract_links_svc findallEx cexMsgC5 = [] ∧ extract_links_mp findallEx cexMsgC5 = [] := by
  constructor
  · decide
  · decide

/-- C6 counterexample: the html href scan runs under `re.IGNORECASE` and its
matches are appended unfiltered, so a message whose html carries an
uppercase-scheme Temi href yields a link that does not start with the exact
string `https://www.temi.com/editor/t/`. -/
theorem C6_counterexample :
    extract_links_svc (fun _ => []) cexMsgC6 = ["HTTPS://WWW.TEMI.COM/editor/t/ABC"] ∧
    pyStartsWith "HTTPS://WWW.TEMI.COM/editor/t/ABC" temiPrefix = false := by
  constructor
  · decide
  · decide

/-- A plain-string match whose trimmed form carries the Temi prefix
contributes that trimmed form to the text-scan links. -/
theorem svcTextLinks_mem (ms : List ReMatch) (s : String) (hm : ReMatch.str s ∈ ms)
    (hpfx : pyStartsWith (rstripPunct s) temiPrefix = true) :
    rstripPunct s ∈ svcTextLinks ms := by
  unfold svcTextLinks
  refine List.mem_flatMap.mpr ⟨ReMatch.str s, hm, ?_⟩
  have hs : s ≠ "" := by
    intro h
    subst h
    exact absurd hpfx (by decide)
  simp [hs, hpfx]

/-- C5 amended: a plain-string text-scan match whose right-trimmed form
starts with the Temi prefix is included in trimmed form (so the cleaning of
the specification holds for Temi links from the text scan, and the example
becomes a Temi URL); matches that fail the Temi filter — such as the
specification's `https://example.com/x/y.` — are discarded entirely rather
than included trimmed, and html href matches are included untrimmed. -/
theorem C5_amended :
    (∀ (findall : String → List ReMatch) (msg : SMsg) (s : String),
        ReMatch.str s ∈ findall (pyTextOf msg) → pyTextOf msg ≠ "" →
        pyStartsWith (rstripPunct s) temiPrefix = true →
        rstripPunct s ∈ extract_links_svc findall msg) ∧
    extract_links_svc findallTemi temiMsg = ["https://www.temi.com/editor/t/x/y"] ∧
    extract_links_mp findallTemi temiMsg = ["https://www.temi.com/editor/t/x/y"] := by
  refine ⟨?_, by decide, by decide⟩
  intro findall msg s hm htext hpfx
  unfold extract_links_svc
  rw [if_neg htext]
  exact List.mem_dedup.mpr (List.mem_append_left _ (svcTextLinks_mem _ _ hm hpfx))

/-- Witness for C5 amended: the Temi link with a trailing period extracts
trimmed. -/
theorem C5_amended_witness :
    rstripPunct "https://www.temi.com/editor/t/x/y." ∈ extract_links_svc findallTemi temiMsg :=
  C5_amended.1 findallTemi temiMsg "https://www.temi.com/editor/t/x/y."
    (by decide) (by decide) (by decide)

/-- A successful case-insensitive literal match lowercases to the pattern. -/
theorem matchLitCI_lower : ∀ (p cs tk rest : List Char),
    matchLitCI p cs = some (tk, rest) → tk.map lowChar = p := by
  intro p
  induction p with
  | nil =>
    intro cs tk rest h
    simp [matchLitCI] at h
    rw [h.1]
    rfl
  | cons a as ih =>
    intro cs tk rest h
    cases cs with
    | nil => simp [matchLitCI] at h
    | cons c cs2 =>
      simp only [matchLitCI] at h
      split at h
      · rename_i hc
        cases h2 : matchLitCI as cs2 with
        | none => rw [h2] at h; simp at h
        | some pr =>
          obtain ⟨tk2, rest2⟩ := pr
          rw [h2] at h
          simp at h
          rw [← h.1, List.map_cons, hc, ih cs2 tk2 rest2 h2]
      · simp at h

/-- Inversion of a successful href-pattern attempt: the captured group is
the consumed prefix (lowercasing to the Temi prefix) followed by the greedy
run. -/
theorem matchHrefAt_link (cs : List Char) (l : String) (rest : List Char)
    (h : matchHrefAt cs = some (l, rest)) :
    ∃ pfx run, pfx.map lowChar = temiPrefix.data ∧ l.data = pfx ++ run := by
  unfold matchHrefAt at h
  split at h
  · simp at h
  · split at h
    · simp at h
    · rename_i pfx rest3 h2
      split at h
      · simp at h
      · simp at h
        exact ⟨pfx, (takeRun rest3).1, matchLitCI_lower _ _ _ _ h2, by rw [← h.1]⟩

/-- Every link emitted by the href scanner starts, after ASCII lowercasing,
with the Temi prefix. -/
theorem hrefFindallAux_lower : ∀ (fuel : Nat) (cs : List Char) (l : String),
    l ∈ hrefFindallAux fuel cs → pyStartsWith (pyLower l) temiPrefix = true := by
  intro fuel
  induction fuel with
  | zero => intro cs l h; simp [hrefFindallAux] at h
  | succ n ih =>
    intro cs l h
    cases cs with
    | nil => simp [hrefFindallAux] at h
    | cons c cs2 =>
      unfold hrefFindallAux at h
      cases hm : matchHrefAt (c :: cs2) with
      | none => rw [hm] at h; exact ih cs2 l h
      | some pr =>
        obtain ⟨l2, rest⟩ := pr
        rw [hm] at h
        rcases List.mem_cons.mp h with h | h
        · subst h
          obtain ⟨pfx, run, hlow, hdata⟩ := matchHrefAt_link _ _ _ hm
          unfold pyStartsWith pyLower
          rw [hdata, List.map_append, hlow]
          exact List.isPrefixOf_iff_prefix.mpr (List.prefix_append _ _)
        · exact ih rest l h

/-- A string prefix survives ASCII lowercasing when the prefix is already
lowercase. -/
theorem pyStartsWith_lower (s p : String) (hp : p.data.map lowChar = p.data)
    (h : pyStartsWith s p = true) : pyStartsWith (pyLower s) p = true := by
  unfold pyStartsWith at h ⊢
  obtain ⟨t, ht⟩ := List.isPrefixOf_iff_prefix.mp h
  refine List.isPrefixOf_iff_prefix.mpr ⟨t.map lowChar, ?_⟩
  show p.data ++ t.map lowChar = (pyLower s).data
  rw [← hp, ← List.map_append, ht]
  rfl

/-- C6 amended: for every pattern whose matches are plain strings, every
link returned by the base service's `extract_links` starts with the Temi
prefix up to ASCII case — custom-pattern text matches are filtered by an
exact (case-sensitive) prefix check, while the html href scan matches the
prefix case-insensitively and can therefore return case variants of it, but
never a non-Temi link. -/
theorem C6_amended (findall : String → List ReMatch) (msg : SMsg)
    (hstr : ∀ t m, m ∈ findall t → ∃ s, m = ReMatch.str s) :
    ∀ l ∈ extract_links_svc findall msg, pyStartsWith (pyLower l) temiPrefix = true := by
  intro l hl
  unfold extract_links_svc at hl
  by_cases htext : pyTextOf msg = ""
  · rw [if_pos htext] at hl
    simp at hl
  · rw [if_neg htext] at hl
    rcases List.mem_append.mp (List.mem_dedup.mp hl) with h | h
    · obtain ⟨m, hm, hin⟩ := List.mem_flatMap.mp h
      obtain ⟨s, rfl⟩ := hstr _ m hm
      have hin2 : l ∈
          (if s ≠ "" then
            if pyStartsWith (rstripPunct s) temiPrefix = true then [rstripPunct s] else []
          else []) := hin
      by_cases hs : s = ""
      · simp [hs] at hin2
      · rw [if_pos hs] at hin2
        by_cases hpfx : pyStartsWith (rstripPunct s) temiPrefix = true
        · rw [if_pos hpfx] at hin2
          rcases List.mem_singleton.mp hin2 with rfl
          exact pyStartsWith_lower _ _ (by decide) hpfx
        · rw [if_neg hpfx] at hin2
          simp at hin2
    · by_cases hh : optTruthy msg.html = true
      · rw [if_pos hh] at h
        exact hrefFindallAux_lower _ _ _ h
      · rw [if_neg hh] at h
        simp at h

/-- Witness for C6 amended at a concrete plain-string pattern and message. -/
theorem C6_amended_witness :
    pyStartsWith (pyLower "https://www.temi.com/editor/t/x/y") temiPrefix = true := by
  refine C6_amended findallTemi temiMsg ?_ "https://www.temi.com/editor/t/x/y" (by decide)
  intro t m hm
  unfold findallTemi at hm
  split at hm
  · simp at hm
    exact ⟨_, hm⟩
  · simp at hm

/-- The registry built at import time holds exactly the two canonical
entries (`SERVICE_NAME` coincides with the registration name for both). -/
theorem theRegistry_eval :
    theRegistry = [("xtempmail", xtempmailClass), ("mailtm", mailtmClass)] := by decide

/-- Case analysis of the case-insensitive registry lookup. -/
theorem get_service_eval (name : String) :
    get_service theRegistry name =
      if pyLower name = "xtempmail" then some xtempmailClass
      else if pyLower name = "mailtm" then some mailtmClass
      else none := by
  unfold get_service
  rw [theRegistry_eval]
  by_cases h1 : pyLower name = "xtempmail"
  · simp [List.find?, h1]
  · by_cases h2 : pyLower name = "mailtm"
    · simp [List.find?, h1, h2, Ne.symm h1]
    · simp [List.find?, h1, h2, Ne.symm h1, Ne.symm h2]

/-- C8: `create_service` performs a case-insensitive lookup: every name
whose lowercasing matches no registered key fails with the unknown-service
`ValueError` — a pure lookup miss, constructing no instance, before any
account or network work — and every registered name (by alias or canonical
`SERVICE_NAME`) yields a freshly constructed instance of the registered
class. -/
theorem C8_registry_lookup (name : String) :
    (pyLower name ∉ ["xtempmail", "mailtm"] →
      create_service theRegistry name = .error (.valueError ("Unknown service: " ++ name))) ∧
    (∀ c, get_service theRegistry name = some c →
      create_service theRegistry name = .ok ⟨c⟩) ∧
    (pyLower name ∈ ["xtempmail", "mailtm"] →
      ∃ c, create_service theRegistry name = .ok ⟨c⟩) := by
  have hg := get_service_eval name
  refine ⟨?_, ?_, ?_⟩
  · intro hnot
    simp only [List.mem_cons, List.not_mem_nil, or_false, not_or] at hnot
    unfold create_service
    rw [hg, if_neg hnot.1, if_neg hnot.2]
  · intro c hc
    unfold create_service
    rw [hc]
  · intro hmem
    simp only [List.mem_cons, List.not_mem_nil, or_false] at hmem
    unfold create_service
    rw [hg]
    by_cases h1 : pyLower name = "xtempmail"
    · rw [if_pos h1]
      exact ⟨xtempmailClass, rfl⟩
    · rcases hmem with h | h
      · exact absurd h h1
      · rw [if_neg h1, if_pos h]
        exact ⟨mailtmClass, rfl⟩

/-- Witness for C8: an unknown name fails, a case-variant registered name
succeeds with a fresh instance. -/
theorem C8_registry_lookup_witness :
    create_service theRegistry "doesnotexist" =
      .error (.valueError ("Unknown service: " ++ "doesnotexist")) ∧
    create_service theRegistry "MailTM" = .ok ⟨mailtmClass⟩ :=
  ⟨(C8_registry_lookup "doesnotexist").1 (by decide),
   (C8_registry_lookup "MailTM").2.1 mailtmClass (by decide)⟩

/-- A successful literal match consumes exactly the pattern's length. -/
theorem matchLitCI_length : ∀ (p cs tk rest : List Char),
    matchLitCI p cs = some (tk, rest) →
      tk.length + rest.length = cs.length ∧ tk.length = p.length := by
  intro p
  induction p with
  | nil =>
    intro cs tk rest h
    unfold matchLitCI at h
    simp at h
    obtain ⟨h1, h2⟩ := h
    subst h1
    subst h2
    simp
  | cons a as ih =>
    intro cs tk rest h
    cases cs with
    | nil => simp [matchLitCI] at h
    | cons c cs2 =>
      unfold matchLitCI at h
      split at h
      · cases h2 : matchLitCI as cs2 with
        | none => rw [h2] at h; simp at h
        | some pr =>
          obtain ⟨tk2, rest2⟩ := pr
          rw [h2] at h
          simp at h
          obtain ⟨h3, h4⟩ := h
          subst h3
          subst h4
          have := ih cs2 tk2 rest2 h2
          simp only [List.length_cons]
          omega
      · simp at h

/-- The greedy run splits its input. -/
theorem takeRun_length : ∀ cs : List Char,
    (takeRun cs).1.length + (takeRun cs).2.length = cs.length := by
  intro cs
  induction cs with
  | nil => rfl
  | cons c cs ih =>
    unfold takeRun
    by_cases h : c ∈ hrefStopChars
    · rw [if_pos h]
      simp
    · rw [if_neg h]
      simp only [List.length_cons]
      omega

/-- Skipping the optional quote consumes at most one character. -/
theorem skipQuote_length (cs : List Char) : (skipQuote cs).length ≤ cs.length := by
  cases cs with
  | nil => exact Nat.le_refl 0
  | cons c cs2 =>
    unfold skipQuote
    dsimp only
    by_cases h : c ∈ ['\'', '"']
    · rw [if_pos h]
      exact Nat.le_succ _
    · rw [if_neg h]

/-- A successful href match consumes at least one character, so the scanner
always advances. -/
theorem matchHrefAt_rest_lt (cs : List Char) (l : String) (rest : List Char)
    (h : matchHrefAt cs = some (l, rest)) : rest.length < cs.length := by
  unfold matchHrefAt at h
  split at h
  · simp at h
  · rename_i tk1 rest1 h1
    split at h
    · simp at h
    · rename_i pfx rest3 h2
      split at h
      · simp at h
      · rename_i hne
        simp at h
        have e1 := matchLitCI_length _ _ _ _ h1
        have e2 := matchLitCI_length _ _ _ _ h2
        have e3 := takeRun_length rest3
        have e4 := skipQuote_length rest1
        have h5 : ("href=".data).length = 5 := rfl
        have h30 : (temiPrefix.data).length = 30 := rfl
        have hne2 : (takeRun rest3).1 ≠ [] := by simpa using hne
        have hrun : (takeRun rest3).1.length ≠ 0 :=
          fun h0 => hne2 (List.length_eq_zero.mp h0)
        have hr : rest = (takeRun rest3).2 := h.2.symm
        rw [hr]
        omega

/-- The scanner's result does not depend on the fuel once the fuel covers
the input length: the fuel `s.data.length` used by `hrefFindall` is always
enough. -/
theorem hrefFindallAux_congr : ∀ (f g : Nat) (cs : List Char),
    cs.length ≤ f → cs.length ≤ g → hrefFindallAux f cs = hrefFindallAux g cs := by
  intro f
  induction f with
  | zero =>
    intro g cs hf _
    have hnil : cs = [] := List.length_eq_zero.mp (Nat.le_zero.mp hf)
    subst hnil
    cases g <;> rfl
  | succ n ih =>
    intro g cs hf hg
    cases cs with
    | nil => cases g <;> rfl
    | cons c cs2 =>
      cases g with
      | zero => simp at hg
      | succ g2 =>
        have hlen : (c :: cs2).length = cs2.length + 1 := rfl
        unfold hrefFindallAux
        cases hm : matchHrefAt (c :: cs2) with
        | none =>
          exact ih g2 cs2 (by omega) (by omega)
        | some pr =>
          obtain ⟨link, rest⟩ := pr
          have hlt := matchHrefAt_rest_lt _ _ _ hm
          dsimp only
          rw [ih g2 rest (by omega) (by omega)]

/-! ### Poll-loop invariants -/

/-- With an always-succeeding callback every candidate is delivered and the
delivery loop reports success. -/
theorem deliverSeq_all (cb : Nat → String → Bool) (hcb : ∀ k i, cb k i = true) :
    ∀ (k : Nat) (ms : List SMsg),
      (deliverSeq cb k ms).1 = ms ∧ (deliverSeq cb k ms).2.2 = true := by
  intro k ms
  induction ms generalizing k with
  | nil => exact ⟨rfl, rfl⟩
  | cons m ms ih =>
    unfold deliverSeq
    rw [if_pos (hcb k m.id)]
    exact ⟨by rw [(ih (k + 1)).1], (ih (k + 1)).2⟩

/-- Poll-loop invariant: callback invocations carry pairwise distinct ids
and every delivered id is recorded in `known_ids`. -/
def PInv (st : PollState) : Prop :=
  (st.delivered.map SMsg.id).Nodup ∧ ∀ i ∈ st.delivered.map SMsg.id, i ∈ st.known

/-- Ids of non-first-poll delivery candidates are new: not yet known, and
members of the batch's `new_ids`. -/
theorem newMsgs_id_not_known (st : PollState) (msgs : List SMsg) (i : String)
    (hi : i ∈ (newMsgsOf st msgs).map SMsg.id) : i ∉ st.known ∧ i ∈ newIdsOf st msgs := by
  obtain ⟨m, hm, rfl⟩ := List.mem_map.mp hi
  unfold newMsgsOf at hm
  have h2 := (List.mem_filter.mp hm).2
  have h3 : m.id ∈ newIdsOf st msgs := by simpa using h2
  have h4 := h3
  unfold newIdsOf at h4
  have h5 := (List.mem_filter.mp h4).2
  exact ⟨by simpa using h5, h3⟩

/-- One successful tick preserves the invariant when the fetched batch has
pairwise distinct ids. -/
theorem pollTick_inv (cb : Nat → String → Bool) (hcb : ∀ k i, cb k i = true)
    (st : PollState) (msgs : List SMsg) (hb : (msgs.map SMsg.id).Nodup) (h : PInv st) :
    PInv (pollTick cb st msgs) := by
  obtain ⟨hnd, hsub⟩ := h
  unfold pollTick
  by_cases hk : st.known.isEmpty = true
  · rw [if_pos hk]
    have hke : st.known = [] := by
      cases hx : st.known
      · rfl
      · rw [hx] at hk; simp at hk
    have hde : st.delivered.map SMsg.id = [] := by
      cases hdm : st.delivered.map SMsg.id with
      | nil => rfl
      | cons x xs =>
        exact absurd (hsub x (by rw [hdm]; exact List.mem_cons_self x xs))
          (by rw [hke]; exact List.not_mem_nil x)
    unfold PInv
    dsimp only
    rw [(deliverSeq_all cb hcb st.calls msgs).1, List.map_append, hde, List.nil_append]
    constructor
    · exact hb
    · intro i hi
      refine List.mem_append_right _ ?_
      unfold currentIds
      exact List.mem_dedup.mpr hi
  · rw [if_neg hk]
    have hds := deliverSeq_all cb hcb st.calls (newMsgsOf st msgs)
    unfold PInv
    dsimp only
    rw [hds.1, if_pos hds.2, List.map_append]
    constructor
    · refine List.Nodup.append hnd ?_ ?_
      · refine List.Nodup.sublist ?_ hb
        unfold newMsgsOf
        exact List.Sublist.map SMsg.id (List.filter_sublist msgs)
      · intro i hi1 hi2
        exact absurd (hsub i hi1) (newMsgs_id_not_known st msgs i hi2).1
    · intro i hi
      rcases List.mem_append.mp hi with h | h
      · exact List.mem_append_left _ (hsub i h)
      · exact List.mem_append_right _ (newMsgs_id_not_known st msgs i h).2

/-- The invariant holds along a whole session of successful fetches. -/
theorem pollFold_inv (cb : Nat → String → Bool) (hcb : ∀ k i, cb k i = true) :
    ∀ (fs : List (List SMsg)) (st : PollState),
      (∀ b ∈ fs, (b.map SMsg.id).Nodup) → PInv st → PInv (fs.foldl (pollTick cb) st) := by
  intro fs
  induction fs with
  | nil => intro st _ h; exact h
  | cons b fs ih =>
    intro st hb h
    rw [List.foldl_cons]
    exact ih _ (fun b2 hb2 => hb b2 (List.mem_cons_of_mem _ hb2))
      (pollTick_inv cb hcb st b (hb b (List.mem_cons_self b fs)) h)

/-- One tick only appends to the delivery log. -/
theorem pollTick_delivered_prefix (cb : Nat → String → Bool) (st : PollState)
    (msgs : List SMsg) : ∃ t, (pollTick cb st msgs).delivered = st.delivered ++ t := by
  unfold pollTick
  split
  · exact ⟨_, rfl⟩
  · exact ⟨_, rfl⟩

/-- A delivered id stays delivered for the rest of the session. -/
theorem pollFold_delivered_mono (cb : Nat → String → Bool) :
    ∀ (fs : List (List SMsg)) (st : PollState) (i : String),
      i ∈ st.delivered.map SMsg.id →
      i ∈ (fs.foldl (pollTick cb) st).delivered.map SMsg.id := by
  intro fs
  induction fs with
  | nil => intro st i h; exact h
  | cons b fs ih =>
    intro st i h
    rw [List.foldl_cons]
    refine ih _ _ ?_
    obtain ⟨t, ht⟩ := pollTick_delivered_prefix cb st b
    rw [ht, List.map_append]
    exact List.mem_append_left _ h

/-- Under distinct-id batches and a non-raising callback the whole session
delivers pairwise distinct ids. -/
theorem pollRun_nodup (cb : Nat → String → Bool) (hcb : ∀ k i, cb k i = true)
    (fs : List (List SMsg)) (hb : ∀ b ∈ fs, (b.map SMsg.id).Nodup) :
    ((pollRun cb fs).delivered.map SMsg.id).Nodup :=
  (pollFold_inv cb hcb fs ⟨[], [], 0⟩ hb ⟨List.nodup_nil, by intro i hi; simp at hi⟩).1

/-- Every message of the first fetch is delivered during the session. -/
theorem pollRun_first_mem (cb : Nat → String → Bool) (hcb : ∀ k i, cb k i = true)
    (b : List SMsg) (fs : List (List SMsg)) (m : SMsg) (hm : m ∈ b) :
    m.id ∈ (pollRun cb (b :: fs)).delivered.map SMsg.id := by
  unfold pollRun
  rw [List.foldl_cons]
  refine pollFold_delivered_mono cb fs _ _ ?_
  unfold pollTick
  rw [if_pos (show (([] : List String)).isEmpty = true from rfl)]
  dsimp only
  rw [(deliverSeq_all cb hcb 0 b).1, List.nil_append]
  exact List.mem_map_of_mem _ hm

/-! ### XTempMail monitor invariants -/

/-- XTempMail invariant: `_processed_message_ids` is exactly the list of
delivered ids (each id is marked together with its delivery) and has no
duplicates. -/
def XInv (st : XtState) : Prop :=
  st.processed = st.delivered.map SMsg.id ∧ st.processed.Nodup

/-- A delivery of an unprocessed id preserves the invariant. -/
theorem xtDeliver_inv (st : XtState) (m : SMsg) (h : XInv st)
    (hm : m.id ∉ st.processed) : XInv (xtDeliver st m) := by
  obtain ⟨he, hn⟩ := h
  constructor
  · show st.processed ++ [m.id] = (st.delivered ++ [m]).map SMsg.id
    rw [List.map_append, he]
    rfl
  · show (st.processed ++ [m.id]).Nodup
    refine List.Nodup.append hn (List.nodup_singleton _) ?_
    intro a ha hb
    rcases List.mem_singleton.mp hb with rfl
    exact hm ha

/-- The initial flush preserves the invariant whatever the callback does. -/
theorem xtFlush_inv (cb : Nat → String → Bool) :
    ∀ (ms : List SMsg) (st : XtState), XInv st → XInv (xtFlush cb st ms) := by
  intro ms
  induction ms with
  | nil => intro st h; exact h
  | cons m ms ih =>
    intro st h
    unfold xtFlush
    by_cases hc : st.processed.contains m.id = true
    · rw [if_pos hc]; exact ih st h
    · rw [if_neg hc]
      have hm : m.id ∉ st.processed := by simpa using hc
      by_cases hk : cb st.calls m.id = true
      · rw [if_pos hk]
        exact ih _ (xtDeliver_inv st m h hm)
      · rw [if_neg hk]
        exact xtDeliver_inv st m h hm

/-- A push event preserves the invariant whatever the callback does. -/
theorem xtPush_inv (cb : Nat → String → Bool) (st : XtState) (m : SMsg) (h : XInv st) :
    XInv (xtPush cb st m) := by
  unfold xtPush
  by_cases hc : st.processed.contains m.id = true
  · rw [if_pos hc]; exact h
  · rw [if_neg hc]
    exact xtDeliver_inv st m h (by simpa using hc)

/-- The re-check delivery loop preserves the invariant when its batch has
distinct, unprocessed ids. -/
theorem xtRecheckLoop_inv (cb : Nat → String → Bool) :
    ∀ (ms : List SMsg) (st : XtState), XInv st → (ms.map SMsg.id).Nodup →
      (∀ m2 ∈ ms, m2.id ∉ st.processed) → XInv (xtRecheckLoop cb st ms) := by
  intro ms
  induction ms with
  | nil => intro st h _ _; exact h
  | cons m ms ih =>
    intro st h hnd hfresh
    rw [List.map_cons] at hnd
    unfold xtRecheckLoop
    have hinv2 := xtDeliver_inv st m h (hfresh m (List.mem_cons_self m ms))
    by_cases hk : cb st.calls m.id = true
    · rw [if_pos hk]
      refine ih _ hinv2 (List.nodup_cons.mp hnd).2 ?_
      intro m2 hm2 hmem
      rcases List.mem_append.mp hmem with hx | hx
      · exact hfresh m2 (List.mem_cons_of_mem _ hm2) hx
      · rcases List.mem_singleton.mp hx with heq
        exact (List.nodup_cons.mp hnd).1 (heq ▸ List.mem_map_of_mem SMsg.id hm2)
    · rw [if_neg hk]
      exact hinv2

/-- A re-check event preserves the invariant when the fetched batch has
pairwise distinct ids. -/
theorem xtRecheck_inv (cb : Nat → String → Bool) (st : XtState) (msgs : List SMsg)
    (h : XInv st) (hb : (msgs.map SMsg.id).Nodup) : XInv (xtRecheck cb st msgs) := by
  unfold xtRecheck
  refine xtRecheckLoop_inv cb _ st h ?_ ?_
  · exact List.Nodup.sublist (List.Sublist.map SMsg.id (List.filter_sublist msgs)) hb
  · intro m2 hm2
    have h2 := (List.mem_filter.mp hm2).2
    simpa using h2

/-- The invariant holds along the whole event sequence. -/
theorem xtFold_inv (cb : Nat → String → Bool) :
    ∀ (evs : List XtEvent) (st : XtState), XInv st →
      (∀ msgs, XtEvent.recheck msgs ∈ evs → (msgs.map SMsg.id).Nodup) →
      XInv (evs.foldl (fun st e =>
        match e with
        | XtEvent.push m => xtPush cb st m
        | XtEvent.recheck msgs => xtRecheck cb st msgs) st) := by
  intro evs
  induction evs with
  | nil => intro st h _; exact h
  | cons e evs ih =>
    intro st h hre
    rw [List.foldl_cons]
    refine ih _ ?_ (fun msgs hm => hre msgs (List.mem_cons_of_mem _ hm))
    cases e with
    | push m => exact xtPush_inv cb st m h
    | recheck msgs => exact xtRecheck_inv cb st msgs h (hre msgs (List.mem_cons_self _ _))

/-- The invariant of a whole xtempmail session. -/
theorem xtRun_inv (cb : Nat → String → Bool) (initial : List SMsg) (events : List XtEvent)
    (hre : ∀ msgs, XtEvent.recheck msgs ∈ events → (msgs.map SMsg.id).Nodup) :
    XInv (xtRun cb initial events) := by
  unfold xtRun
  exact xtFold_inv cb events _ (xtFlush_inv cb initial ⟨[], [], 0⟩ ⟨rfl, List.nodup_nil⟩) hre

/-- Processed ids only grow during a delivery. -/
theorem xtDeliver_mono (st : XtState) (m : SMsg) (i : String) (h : i ∈ st.processed) :
    i ∈ (xtDeliver st m).processed :=
  List.mem_append_left _ h

/-- Processed ids only grow during the flush. -/
theorem xtFlush_mono (cb : Nat → String → Bool) :
    ∀ (ms : List SMsg) (st : XtState) (i : String), i ∈ st.processed →
      i ∈ (xtFlush cb st ms).processed := by
  intro ms
  induction ms with
  | nil => intro st i h; exact h
  | cons m ms ih =>
    intro st i h
    unfold xtFlush
    by_cases hc : st.processed.contains m.id = true
    · rw [if_pos hc]; exact ih st i h
    · rw [if_neg hc]
      by_cases hk : cb st.calls m.id = true
      · rw [if_pos hk]; exact ih _ i (xtDeliver_mono st m i h)
      · rw [if_neg hk]; exact xtDeliver_mono st m i h

/-- Processed ids only grow during the re-check loop. -/
theorem xtRecheckLoop_mono (cb : Nat → String → Bool) :
    ∀ (ms : List SMsg) (st : XtState) (i : String), i ∈ st.processed →
      i ∈ (xtRecheckLoop cb st ms).processed := by
  intro ms
  induction ms with
  | nil => intro st i h; exact h
  | cons m ms ih =>
    intro st i h
    unfold xtRecheckLoop
    by_cases hk : cb st.calls m.id = true
    · rw [if_pos hk]; exact ih _ i (xtDeliver_mono st m i h)
    · rw [if_neg hk]; exact xtDeliver_mono st m i h

/-- Processed ids only grow along the event sequence. -/
theorem xtFold_mono (cb : Nat → String → Bool) :
    ∀ (evs : List XtEvent) (st : XtState) (i : String), i ∈ st.processed →
      i ∈ (evs.foldl (fun st e =>
        match e with
        | XtEvent.push m => xtPush cb st m
        | XtEvent.recheck msgs => xtRecheck cb st msgs) st).processed := by
  intro evs
  induction evs with
  | nil => intro st i h; exact h
  | cons e evs ih =>
    intro st i h
    rw [List.foldl_cons]
    refine ih _ i ?_
    cases e with
    | push m =>
      dsimp only
      unfold xtPush
      by_cases hc : st.processed.contains m.id = true
      · rw [if_pos hc]; exact h
      · rw [if_neg hc]; exact xtDeliver_mono st m i h
    | recheck msgs =>
      dsimp only
      unfold xtRecheck
      exact xtRecheckLoop_mono cb _ st i h

/-- With a non-raising callback, the flush processes every initial
message's id. -/
theorem xtFlush_mem (cb : Nat → String → Bool) (hcb : ∀ k i, cb k i = true) :
    ∀ (ms : List SMsg) (st : XtState) (m : SMsg), m ∈ ms →
      m.id ∈ (xtFlush cb st ms).processed := by
  intro ms
  induction ms with
  | nil => intro st m h; exact absurd h (List.not_mem_nil m)
  | cons m0 ms ih =>
    intro st m h
    unfold xtFlush
    by_cases hc : st.processed.contains m0.id = true
    · rw [if_pos hc]
      rcases List.mem_cons.mp h with rfl | h2
      · exact xtFlush_mono cb ms st m.id (by simpa using hc)
      · exact ih st m h2
    · rw [if_neg hc, if_pos (hcb st.calls m0.id)]
      rcases List.mem_cons.mp h with rfl | h2
      · exact xtFlush_mono cb ms _ m.id (List.mem_append_right _ (List.mem_singleton.mpr rfl))
      · exact ih _ m h2

/-- C1 amended: provided every fetched batch (and re-check batch) carries
pairwise distinct message ids and the callback returns normally, every
adapter's monitoring session delivers each id at most once — and messages
present on the first fetch (poll loops) or initial flush (XTempMail) are
delivered exactly once, not twice, even though they are also marked known.
The distinct-ids proviso is what the counterexample forces: a batch
containing two messages with one id is delivered twice by the code. -/
theorem C1_amended (cb : Nat → String → Bool) (hcb : ∀ k i, cb k i = true)
    (fetches : List (List SMsg)) (hb : ∀ b ∈ fetches, (b.map SMsg.id).Nodup)
    (initial : List SMsg) (events : List XtEvent)
    (hre : ∀ msgs, XtEvent.recheck msgs ∈ events → (msgs.map SMsg.id).Nodup) :
    ((pollRun cb fetches).delivered.map SMsg.id).Nodup ∧
    (∀ m ∈ fetches.headD [], ((pollRun cb fetches).delivered.map SMsg.id).count m.id = 1) ∧
    ((xtRun cb initial events).delivered.map SMsg.id).Nodup ∧
    (∀ m ∈ initial, ((xtRun cb initial events).delivered.map SMsg.id).count m.id = 1) := by
  have hxinv := xtRun_inv cb initial events hre
  have hpnd := pollRun_nodup cb hcb fetches hb
  refine ⟨hpnd, ?_, hxinv.1 ▸ hxinv.2, ?_⟩
  · intro m hm
    cases fetches with
    | nil => simp at hm
    | cons b fs =>
      exact List.count_eq_one_of_mem hpnd
        (pollRun_first_mem cb hcb b fs m (by simpa using hm))
  · intro m hm
    have hmem1 : m.id ∈ (xtFlush cb ⟨[], [], 0⟩ initial).processed :=
      xtFlush_mem cb hcb initial _ m hm
    have hmem2 : m.id ∈ (xtRun cb initial events).processed := by
      unfold xtRun
      exact xtFold_mono cb events _ m.id hmem1
    exact List.count_eq_one_of_mem (hxinv.1 ▸ hxinv.2) (hxinv.1 ▸ hmem2)

/-- Witness for C1 amended on a concrete session of each kind. -/
theorem C1_amended_witness :
    ((pollRun (fun _ _ => true) [[cexM1], [cexM1, cexM2]]).delivered.map SMsg.id).Nodup ∧
    (∀ m ∈ [[cexM1], [cexM1, cexM2]].headD [],
      ((pollRun (fun _ _ => true) [[cexM1], [cexM1, cexM2]]).delivered.map SMsg.id).count m.id
        = 1) ∧
    ((xtRun (fun _ _ => true) [cexM1] [XtEvent.push cexM2]).delivered.map SMsg.id).Nodup ∧
    (∀ m ∈ [cexM1],
      ((xtRun (fun _ _ => true) [cexM1] [XtEvent.push cexM2]).delivered.map SMsg.id).count m.id
        = 1) :=
  C1_amended (fun _ _ => true) (fun _ _ => rfl) [[cexM1], [cexM1, cexM2]] (by decide)
    [cexM1] [XtEvent.push cexM2] (by intro msgs h; simp at h)

/-- C2 amended: XTempMail's delivery sites add each id to the processed set
before or together with invoking the callback, so for every callback
behavior — including raising ones — the processed set equals the delivered
ids and no id is delivered twice; the MailTM and GuerrillaMail poll loops
instead update `known_ids` only after the whole batch, so a mid-batch
callback failure redelivers that batch's already delivered ids (the
counterexample). -/
theorem C2_amended (cb : Nat → String → Bool) (initial : List SMsg) (events : List XtEvent)
    (hre : ∀ msgs, XtEvent.recheck msgs ∈ events → (msgs.map SMsg.id).Nodup) :
    (xtRun cb initial events).processed = (xtRun cb initial events).delivered.map SMsg.id ∧
    ((xtRun cb initial events).delivered.map SMsg.id).Nodup := by
  have h := xtRun_inv cb initial events hre
  exact ⟨h.1, h.1 ▸ h.2⟩

/-- Witness for C2 amended with a raising callback and a re-check event. -/
theorem C2_amended_witness :
    (xtRun cbFailThird [cexM1] [XtEvent.push cexM2, XtEvent.recheck [cexM1, cexM2, cexM3]]).processed
      = (xtRun cbFailThird [cexM1]
          [XtEvent.push cexM2, XtEvent.recheck [cexM1, cexM2, cexM3]]).delivered.map SMsg.id ∧
    ((xtRun cbFailThird [cexM1]
        [XtEvent.push cexM2, XtEvent.recheck [cexM1, cexM2, cexM3]]).delivered.map SMsg.id).Nodup :=
  C2_amended cbFailThird [cexM1] [XtEvent.push cexM2, XtEvent.recheck [cexM1, cexM2, cexM3]]
    (by intro msgs h; simp at h; subst h; decide)

end Tmpmail
